import Mathlib

/-!
Verification of the SELD block/complexity catalogs.

This file shallowly embeds the two source files of the repository:
* `modules.py` — the Block Catalog: constructors that take a configuration
  dictionary and return a tensor pipeline.  We embed each pipeline at the
  shape level (batch dimension excluded, channel dimension last), using the
  documented shape semantics of the underlying Keras layers.
* `stage_complexity.py` — the Complexity Catalog: stage-level cost/shape
  functions over the same configuration dictionaries.

Python dictionaries are embedded as association lists of `String × Val`;
mutation of dictionaries (the `copy.deepcopy` / `model_config['strides'] = 1`
pattern of the residual stages) is embedded with an explicit heap of
configuration objects so that the frame property "the caller's configuration
is never mutated" is a real statement.

The repository's `utils.dict_add` and the primitive complexity functions
(`conv2d_complexity`, `norm_complexity`, `pool2d_complexity`,
`res_basic_block_complexity`, `res_bottleneck_block_complexity`) are not
part of the two source files; they are modelled from the specification and
are marked as such in their doc comments.
-/

/-- Values stored in a configuration dictionary: integers, lists of
integers, 2-tuples (Python tuples such as a stride pair), rationals given
as numerator/denominator (for fractional fields such as the bottleneck
fraction), and strings. -/
inductive Val where
  | int : Int → Val
  | list : List Int → Val
  | pair : Int → Int → Val
  | frac : Int → Nat → Val
  | str : String → Val
deriving DecidableEq, Repr

/-- A configuration dictionary: an association list from keys to values. -/
abbrev Config := List (String × Val)

/-- Dictionary lookup, `model_config[k]` / `model_config.get(k, default)`. -/
def cfgGet (c : Config) (k : String) : Option Val :=
  match c with
  | [] => none
  | (k', v) :: rest => if k' = k then some v else cfgGet rest k

/-- Dictionary update `c[k] = v`: replaces the first binding of `k`, or
appends a new binding when `k` is absent. -/
def cfgSet (c : Config) (k : String) (v : Val) : Config :=
  match c with
  | [] => [(k, v)]
  | (k', v') :: rest => if k' = k then (k, v) :: rest else (k', v') :: cfgSet rest k v

/-- Mandatory key lookup: `model_config[k]` raising `KeyError` when absent. -/
def getValE (c : Config) (k : String) : Except String Val :=
  match cfgGet c k with
  | none => .error ("KeyError: " ++ k)
  | some v => .ok v

/-- Mandatory integer-valued key lookup. -/
def getIntE (c : Config) (k : String) : Except String Int :=
  match cfgGet c k with
  | none => .error ("KeyError: " ++ k)
  | some (.int n) => .ok n
  | some _ => .error ("TypeError: " ++ k ++ " must be an int")

/-- Mandatory numeric key lookup returning a rational as
numerator/denominator; accepts an integer as well (denominator 1). -/
def getFracE (c : Config) (k : String) : Except String (Int × Nat) :=
  match cfgGet c k with
  | none => .error ("KeyError: " ++ k)
  | some (.int n) => .ok (n, 1)
  | some (.frac n d) => .ok (n, d)
  | some _ => .error ("TypeError: " ++ k ++ " must be a number")

/-- A tensor shape: dimension sizes with the batch dimension excluded and
the channel dimension last. -/
abbrev Shape := List Nat

/-- A cost record: a finite mapping from cost-category keys to numbers.
Python dictionary equality is extensional (insertion order is ignored), so
a cost record is embedded as the function sending a key to its value when
the key is present and to `none` when absent. -/
abbrev Cost := String → Option Int

/-- The empty cost record `{}`. -/
def emptyCost : Cost := fun _ => none

/-- Builds a cost record from a list of key/value entries. -/
def mkCost (l : List (String × Int)) : Cost := fun k => l.lookup k

/-- Modelled from the spec: `utils.dict_add`, the Cost Accumulator.  Merges
two cost records key-wise: every key present in either input is present in
the result, values are summed, and a key absent from one side is treated
as zero.  Neither input is mutated (the embedding is pure). -/
def dict_add (a b : Cost) : Cost := fun k =>
  match a k, b k with
  | none, none => none
  | some x, none => some x
  | none, some y => some y
  | some x, some y => some (x + y)

/-!  Shape semantics of the Keras layers used by `modules.py`.  These model
the external layer library: a same-padded convolution with stride `s` maps a
spatial dimension `n` to `⌈n / s⌉`, which for a 1×1 valid-padded convolution
(the shortcut projection) is the same value `(n - 1) / s + 1`; max-pooling
with pool size `p` (stride defaulting to `p`, valid padding) maps `n` to
`n / p`; batch normalization, activations and dropout preserve shapes. -/

/-- Output size of one spatial dimension of a same-padded convolution
(equivalently of a 1×1 valid-padded convolution) at stride `s`. -/
def convOutDim (n s : Nat) : Nat := (n + s - 1) / s

/-- Shape of a `Conv2D(filters, kernel, strides, padding same)` output on a
rank-3 (batch-excluded) input; any other rank is a shape-inference failure. -/
def conv2dShape (filters : Nat) (st : Nat × Nat) : Shape → Except String Shape
  | [h, w, _] => .ok [convOutDim h st.1, convOutDim w st.2, filters]
  | _ => .error "conv2d: rank-3 input expected"

/-- Shape of a `MaxPooling2D(pool_size)` output (stride defaults to the
pool size, valid padding). -/
def maxPool2dShape (p : Nat × Nat) : Shape → Except String Shape
  | [h, w, c] => .ok [h / p.1, w / p.2, c]
  | _ => .error "max_pooling2d: rank-3 input expected"

/-- Residual addition `out + inputs`: defined when both operand shapes
agree, a shape-inference failure otherwise.  `used` records whether the
shortcut projection was applied on the `inputs` branch. -/
structure BlockOut where
  shape : Shape
  usedShortcut : Bool
deriving DecidableEq, Repr

/-- Adds the residual branch to the main branch, recording in the result
whether the shortcut projection was used. -/
def addResidual (out inp : Shape) (used : Bool) : Except String BlockOut :=
  if out = inp then .ok ⟨out, used⟩ else .error "add: incompatible shapes"

/-- Normalization of the `strides` configuration value as in
`res_bottleneck_block`: `isinstance(strides, int)` turns a scalar `s` into
the tuple `(s, s)`; a tuple is kept as is. -/
def normalizeStrides : Val → Except String (Int × Int)
  | .int s => .ok (s, s)
  | .pair a b => .ok (a, b)
  | _ => .error "TypeError: invalid strides"

/-- Channel count of an input, `inputs.shape[-1]`, as a Python integer. -/
def channelInt (s : Shape) : Int := (s.getLastD 0 : Int)

/-!  `modules.py` — Block Catalog embeddings (shape level). -/

/-- Pipeline returned by `simple_conv_block`: for each `(filters[i],
pool_size[i])` pair, a same-padded stride-1 3×3 convolution, batch
normalization, ReLU, max-pooling of `pool_size[i]`, and dropout (the last
four affect no shape except the pooling). -/
def convBlockPipeline (fl pl : List Int) (inputs : Shape) : Except String Shape :=
  List.foldlM
    (fun x fp => do
      let x ← conv2dShape fp.1.toNat (1, 1) x
      maxPool2dShape (fp.2.toNat, fp.2.toNat) x)
    inputs (fl.zip pl)

/-- `modules.simple_conv_block` (lines 14–40): reads the mandatory
`filters` and `pool_size` keys (the optional `dropout_rate` and
`kernel_regularizer` affect no shape and are omitted); when `filters` is
empty it is replaced by `filters * len(pool_size)` (still empty), when the
lengths differ it raises the length-mismatch `ValueError`, and otherwise it
returns the convolution pipeline. -/
def simple_conv_block (cfg : Config) : Except String (Shape → Except String Shape) := do
  let filters ← getValE cfg "filters"
  let pool_size ← getValE cfg "pool_size"
  match filters with
  | .list fl =>
    match pool_size with
    | .list pl =>
      if fl.length = 0 then
        .ok (convBlockPipeline fl pl)
      else if fl.length ≠ pl.length then
        .error "len of filters and pool_size do not match"
      else
        .ok (convBlockPipeline fl pl)
    | _ => .error "TypeError: object has no len"
  | _ => .error "TypeError: object has no len"

/-- Builds the `simple_conv_block` pipeline and applies it to one input. -/
def simple_conv_block_run (cfg : Config) (s : Shape) : Except String Shape := do
  let bb ← simple_conv_block cfg
  bb s

/-- `modules.res_bottleneck_block` (lines 114–147): reads the mandatory
`filters`, `strides`, `groups` and `bottleneck_ratio` keys (the optional
`activation` affects no shape and is omitted), normalizes a scalar stride
to a pair, computes the bottleneck width `int(filters * bottleneck_ratio)`,
and returns the pipeline: 1×1 convolution to `filters`, 3×3 grouped
convolution to the bottleneck width at the given stride, 1×1 convolution
back to `filters` (each followed by shape-preserving normalization and
activation), with a 1×1 strided shortcut projection of the input applied
exactly when the stride differs from `(1, 1)` or the input channel count
differs from `filters`, followed by the residual addition. -/
def res_bottleneck_block (cfg : Config) : Except String (Shape → Except String BlockOut) := do
  let filters ← getIntE cfg "filters"
  let stv ← getValE cfg "strides"
  let _groups ← getIntE cfg "groups"
  let bfr ← getFracE cfg "bottleneck_ratio"
  let st ← normalizeStrides stv
  let bottleneck_size : Nat := ((filters * bfr.1) / (bfr.2 : Int)).toNat
  .ok (fun inputs => do
    let out ← conv2dShape filters.toNat (1, 1) inputs
    let out ← conv2dShape bottleneck_size (st.1.toNat, st.2.toNat) out
    let out ← conv2dShape filters.toNat (1, 1) out
    if st ≠ (1, 1) ∨ channelInt inputs ≠ filters then do
      let inp ← conv2dShape filters.toNat (st.1.toNat, st.2.toNat) inputs
      addResidual out inp true
    else
      addResidual out inputs false)

/-- Builds the `res_bottleneck_block` pipeline and applies it to one input. -/
def res_bottleneck_block_run (cfg : Config) (s : Shape) : Except String BlockOut := do
  let bb ← res_bottleneck_block cfg
  bb s

/-- Shape of a `Dense(units)` output: the last dimension becomes `units`;
a rank-0 input is a shape-inference failure. -/
def denseShape (units : Nat) : Shape → Except String Shape
  | [] => .error "dense: rank too low"
  | s => .ok (s.dropLast ++ [units])

/-- Shape of a `MultiHeadAttention(n_head, key_dim)(x, x)` output: the
query shape (the output projection restores the query's last dimension). -/
def mhaShape (s : Shape) : Except String Shape := .ok s

/-- Elementwise addition of two tensors: defined when the shapes agree. -/
def addShapes (a b : Shape) : Except String Shape :=
  if a = b then .ok a else .error "add: incompatible shapes"

/-- Last dimension `inputs.shape[-1]`; an empty shape is an index failure. -/
def lastDimE (s : Shape) : Except String Nat :=
  match s.getLast? with
  | some c => .ok c
  | none => .error "IndexError: shape is empty"

/-- `modules.transformer_encoder_layer` (lines 173–199): reads the
mandatory `d_model` and `n_head` keys and the optional `dim_feedforward`
(default `d_model * 4`; `activation` and `dropout_rate` affect no shape and
are omitted), and returns the pipeline that first asserts
`inputs.shape[-1] == d_model`, then applies self-attention with the
residual addition `x + attn` and layer normalization, then the two-layer
feed-forward there and back with the residual addition `x + ffn` and layer
normalization. -/
def transformer_encoder_layer (cfg : Config) :
    Except String (Shape → Except String Shape) := do
  let d_model ← getIntE cfg "d_model"
  let _n_head ← getIntE cfg "n_head"
  let dim_feedforward ←
    match cfgGet cfg "dim_feedforward" with
    | none => Except.ok (d_model * 4)
    | some (.int n) => Except.ok n
    | some _ => Except.error "TypeError: dim_feedforward must be an int"
  .ok (fun inputs => do
    let c ← lastDimE inputs
    if (c : Int) = d_model then do
      let attn ← mhaShape inputs
      let x ← addShapes inputs attn
      let ffn ← denseShape dim_feedforward.toNat x
      let ffn ← denseShape d_model.toNat ffn
      let x ← addShapes x ffn
      .ok x
    else
      .error "AssertionError")

/-- Builds the `transformer_encoder_layer` pipeline and applies it. -/
def transformer_encoder_layer_run (cfg : Config) (s : Shape) : Except String Shape := do
  let bb ← transformer_encoder_layer cfg
  bb s

/-!  A heap of configuration objects.  Python dictionaries are mutable heap
objects; the residual stage functions receive a reference to the caller's
dictionary, `copy.deepcopy` it, and mutate only the copy.  The heap is a
list of configurations, a reference is an index, `deepcopy` appends a copy
at a fresh index, and mutation rewrites the dictionary at one index. -/

/-- A heap of configuration dictionaries, indexed by references. -/
abbrev Heap := List Config

/-- Dereferences a configuration. -/
def heapGet (h : Heap) (r : Nat) : Config := h.getD r []

/-- `copy.deepcopy`: appends a copy of the dictionary at `r` at a fresh
reference (the old length). -/
def deepcopy (h : Heap) (r : Nat) : Heap × Nat := (h ++ [heapGet h r], h.length)

/-- In-place dictionary mutation `h[r][k] = v`. -/
def heapSet (h : Heap) (r : Nat) (k : String) (v : Val) : Heap :=
  h.set r (cfgSet (heapGet h r) k v)

/-!  Modelled complexity primitives (the `complexity` module is an external
collaborator of `stage_complexity.py`; it is not among the source files). -/

/-- Modelled from the spec: cost record of one 2-D convolution, depending
on the kernel size, the input/output channel counts, the group count and
the output spatial size (parameter count and multiply-accumulate count). -/
def convCx (k cin cout groups oh ow : Nat) : Cost :=
  mkCost [("params", (k * k * cin * cout / groups + cout : Nat)),
          ("macs", ((k * k * cin * cout / groups) * oh * ow : Nat))]

/-- Modelled from the spec: `complexity.conv2d_complexity` for the simple
conv stage — a same-padded stride-1 convolution: the shape keeps its
spatial dimensions and the channel dimension becomes `filters`; the cost is
accumulated into `prev_cx`.  A non-integer `filters` value is a type
failure inside the formula (Python would raise a `TypeError`). -/
def conv2d_complexityV (s : Shape) (filters : Val) (k : Nat) (cx : Cost) :
    Except String (Cost × Shape) :=
  match filters with
  | .int f =>
    match s with
    | [h, w, c] => .ok (dict_add cx (convCx k c f.toNat 1 h w), [h, w, f.toNat])
    | _ => .error "conv2d_complexity: rank-3 input expected"
  | _ => .error "TypeError: filters must be an int"

/-- Modelled from the spec: `complexity.norm_complexity` — batch
normalization: the shape is unchanged and the cost is proportional to the
channel count, accumulated into `prev_cx`. -/
def norm_complexity (s : Shape) (cx : Cost) : Except String (Cost × Shape) :=
  .ok (dict_add cx (mkCost [("params", 4 * (s.getLastD 0 : Int))]), s)

/-- Interprets a pooling size or stride value: a scalar `p` means `(p, p)`,
a two-element list gives the per-dimension factors. -/
def poolPair : Val → Except String (Nat × Nat)
  | .int p => .ok (p.toNat, p.toNat)
  | .list [a, b] => .ok (a.toNat, b.toNat)
  | .pair a b => .ok (a.toNat, b.toNat)
  | _ => .error "TypeError: invalid pool size"

/-- Modelled from the spec: `complexity.pool2d_complexity` — pooling
reduces each spatial dimension by the pool factor (the stride defaults to
the pool size when unspecified, i.e. when `strides` is `None`); pooling
itself adds no cost. -/
def pool2d_complexityV (s : Shape) (pool : Val) (strides : Option Val) (cx : Cost) :
    Except String (Cost × Shape) := do
  let st ← poolPair (strides.getD pool)
  match s with
  | [h, w, c] => .ok (cx, [h / st.1, w / st.2, c])
  | _ => .error "pool2d_complexity: rank-3 input expected"

/-- Modelled from the spec: `complexity.res_basic_block_complexity` — the
per-block cost/shape function of the basic residual block: two 3×3
same-padded convolutions (the first at the configured stride), each
followed by normalization, plus the shortcut projection cost exactly when
the normalized stride differs from `(1, 1)` or the channel count changes. -/
def res_basic_block_complexity (cfg : Config) (s : Shape) :
    Except String (Cost × Shape) := do
  let filters ← getIntE cfg "filters"
  let stv ← getValE cfg "strides"
  let st ← normalizeStrides stv
  match s with
  | [h, w, c] =>
    let f := filters.toNat
    let h2 := convOutDim h st.1.toNat
    let w2 := convOutDim w st.2.toNat
    let cx := convCx 3 c f 1 h2 w2
    let cx := dict_add cx (mkCost [("params", 4 * (f : Int))])
    let cx := dict_add cx (convCx 3 f f 1 h2 w2)
    let cx := dict_add cx (mkCost [("params", 4 * (f : Int))])
    let cx := if st ≠ (1, 1) ∨ (c : Int) ≠ filters
              then dict_add cx (convCx 1 c f 1 h2 w2) else cx
    .ok (cx, [h2, w2, f])
  | _ => .error "conv2d_complexity: rank-3 input expected"

/-- Modelled from the spec: `complexity.res_bottleneck_block_complexity` —
the per-block cost/shape function of the bottleneck residual block,
mirroring `modules.res_bottleneck_block`: a 1×1 convolution to `filters`, a
3×3 grouped convolution to the bottleneck width
`int(filters * bottleneck_ratio)` at the configured (normalized) stride, a
1×1 convolution back to `filters`, each followed by normalization, plus the
shortcut projection cost exactly when the normalized stride differs from
`(1, 1)` or the channel count changes. -/
def res_bottleneck_block_complexity (cfg : Config) (s : Shape) :
    Except String (Cost × Shape) := do
  let filters ← getIntE cfg "filters"
  let stv ← getValE cfg "strides"
  let groups ← getIntE cfg "groups"
  let bfr ← getFracE cfg "bottleneck_ratio"
  let st ← normalizeStrides stv
  let bsize : Nat := ((filters * bfr.1) / (bfr.2 : Int)).toNat
  match s with
  | [h, w, c] =>
    let f := filters.toNat
    let h2 := convOutDim h st.1.toNat
    let w2 := convOutDim w st.2.toNat
    let cx := convCx 1 c f 1 h w
    let cx := dict_add cx (mkCost [("params", 4 * (f : Int))])
    let cx := dict_add cx (convCx 3 f bsize groups.toNat h2 w2)
    let cx := dict_add cx (mkCost [("params", 4 * (bsize : Int))])
    let cx := dict_add cx (convCx 1 bsize f 1 h2 w2)
    let cx := dict_add cx (mkCost [("params", 4 * (f : Int))])
    let cx := if st ≠ (1, 1) ∨ (c : Int) ≠ filters
              then dict_add cx (convCx 1 c f 1 h2 w2) else cx
    .ok (cx, [h2, w2, f])
  | _ => .error "conv2d_complexity: rank-3 input expected"

/-!  `stage_complexity.py` — Complexity Catalog embeddings. -/

/-- Loop body of `simple_conv_stage_complexity`: for `depth` iterations,
`conv2d_complexity` with the configured `filters` and kernel 3 followed by
`norm_complexity`, threading the shape and accumulating into the running
cost record. -/
def convNormLoop : Nat → Val → Shape → Cost → Except String (Cost × Shape)
  | 0, _, s, cx => .ok (cx, s)
  | n + 1, f, s, cx => do
    let (cx, s) ← conv2d_complexityV s f 3 cx
    let (cx, s) ← norm_complexity s cx
    convNormLoop n f s cx

/-- `stage_complexity.simple_conv_stage_complexity` (lines 12–25): reads
the mandatory `filters`, `depth` and `pool_size` keys and the optional
`strides` (default `None`); runs `depth` iterations of convolution and
normalization cost starting from the empty cost record, then one pooling
cost.  A negative `depth` runs zero iterations (Python `range`). -/
def simple_conv_stage_complexity (cfg : Config) (input_shape : Shape) :
    Except String (Cost × Shape) := do
  let filters ← getValE cfg "filters"
  let depth ← getIntE cfg "depth"
  let pool_size ← getValE cfg "pool_size"
  let strides := cfgGet cfg "strides"
  let (cx, shape) ← convNormLoop depth.toNat filters input_shape emptyCost
  pool2d_complexityV shape pool_size strides cx

/-- Loop shared by `res_basic_stage_complexity` and
`res_bottleneck_stage_complexity` (their bodies are identical up to the
per-block function): for each iteration, the per-block cost/shape function
is applied to the dictionary at reference `rc`, the cost is accumulated
with `dict_add`, the shape is threaded, and `model_config['strides'] = 1`
mutates the dictionary at `rc` in place. -/
def resStageLoop (block : Config → Shape → Except String (Cost × Shape)) :
    Nat → Heap → Nat → Shape → Cost → (Except String (Cost × Shape)) × Heap
  | 0, h, _, s, acc => (.ok (acc, s), h)
  | n + 1, h, rc, s, acc =>
    match block (heapGet h rc) s with
    | .error e => (.error e, h)
    | .ok (cx, s') =>
      resStageLoop block n (heapSet h rc "strides" (.int 1)) rc s' (dict_add acc cx)

/-- `stage_complexity.res_basic_stage_complexity` (lines 32–45): reads the
mandatory `depth` and `strides` keys from the dictionary at `r`, deep-copies
the dictionary, and runs the per-block loop on the copy. -/
def res_basic_stage_complexity_st (h : Heap) (r : Nat) (s : Shape) :
    (Except String (Cost × Shape)) × Heap :=
  match cfgGet (heapGet h r) "depth" with
  | none => (.error "KeyError: depth", h)
  | some dv =>
    match cfgGet (heapGet h r) "strides" with
    | none => (.error "KeyError: strides", h)
    | some _ =>
      match dv with
      | .int d =>
        let (h1, rc) := deepcopy h r
        resStageLoop res_basic_block_complexity d.toNat h1 rc s emptyCost
      | _ => (.error "TypeError: depth must be an int", h)

/-- `stage_complexity.res_bottleneck_stage_complexity` (lines 48–61): reads
the mandatory `depth` and `strides` keys from the dictionary at `r`,
deep-copies the dictionary, and runs the per-block loop on the copy. -/
def res_bottleneck_stage_complexity_st (h : Heap) (r : Nat) (s : Shape) :
    (Except String (Cost × Shape)) × Heap :=
  match cfgGet (heapGet h r) "depth" with
  | none => (.error "KeyError: depth", h)
  | some dv =>
    match cfgGet (heapGet h r) "strides" with
    | none => (.error "KeyError: strides", h)
    | some _ =>
      match dv with
      | .int d =>
        let (h1, rc) := deepcopy h r
        resStageLoop res_bottleneck_block_complexity d.toNat h1 rc s emptyCost
      | _ => (.error "TypeError: depth must be an int", h)

/-- Loop of the Block Catalog's `res_bottleneck_stage`: each iteration
builds `res_bottleneck_block` from the dictionary at `rc`, applies it to
the running shape, and then mutates `model_config['strides'] = 1`. -/
def resCatalogLoop : Nat → Heap → Nat → Shape → (Except String Shape) × Heap
  | 0, h, _, s => (.ok s, h)
  | n + 1, h, rc, s =>
    match res_bottleneck_block_run (heapGet h rc) s with
    | .error e => (.error e, h)
    | .ok o => resCatalogLoop n (heapSet h rc "strides" (.int 1)) rc o.shape

/-- `modules.res_bottleneck_stage` (lines 98–111): reads the mandatory
`depth` and `strides` keys from the dictionary at `r`, deep-copies the
dictionary, and returns the stage pipeline; embedded here as the
construction followed by one application of the pipeline to a shape. -/
def res_bottleneck_stage_st (h : Heap) (r : Nat) (s : Shape) :
    (Except String Shape) × Heap :=
  match cfgGet (heapGet h r) "depth" with
  | none => (.error "KeyError: depth", h)
  | some dv =>
    match cfgGet (heapGet h r) "strides" with
    | none => (.error "KeyError: strides", h)
    | some _ =>
      match dv with
      | .int d =>
        let (h1, rc) := deepcopy h r
        resCatalogLoop d.toNat h1 rc s
      | _ => (.error "TypeError: depth must be an int", h)

/-!  Reference formulations, written from the specification's words, for
the refinement claims. -/

/-- Reference loop: repeats a per-block cost/shape function on one fixed
configuration value, threading the shape and accumulating the cost with
the Cost Accumulator. -/
def refResLoop (block : Config → Shape → Except String (Cost × Shape))
    (c : Config) : Nat → Shape → Cost → Except String (Cost × Shape)
  | 0, s, acc => .ok (acc, s)
  | n + 1, s, acc =>
    match block c s with
    | .error e => .error e
    | .ok (cx, s') => refResLoop block c n s' (dict_add acc cx)

/-- Reference residual stage, as the specification words it: the first of
`depth` iterations evaluates the per-block function on the given
configuration; every later iteration evaluates it on the configuration
with `strides` forced to `1`; the costs are accumulated with the Cost
Accumulator starting from the empty record and the shape is threaded
sequentially. -/
def refResStage (block : Config → Shape → Except String (Cost × Shape))
    (cfg : Config) (depth : Nat) (s : Shape) : Except String (Cost × Shape) :=
  match depth with
  | 0 => .ok (emptyCost, s)
  | n + 1 =>
    match block cfg s with
    | .error e => .error e
    | .ok (cx, s') =>
      refResLoop block (cfgSet cfg "strides" (.int 1)) n s' (dict_add emptyCost cx)

/-- Reference channel evolution of `depth` same-padded convolutions each
producing `f` channels: the spatial dimensions are untouched and the
channel dimension becomes `f` as soon as one convolution runs. -/
def refConvIter (f : Nat) : Nat → Nat × Nat × Nat → Nat × Nat × Nat
  | 0, t => t
  | n + 1, (h, w, _) => refConvIter f n (h, w, f)

/-- Reference output shape of the simple conv stage as the complexity
catalog computes it: `depth` same-padded convolutions with `f` output
channels followed by a single pooling dividing the two spatial dimensions
by the pool factors `p` and `q`. -/
def refSimpleStageShape (f : Nat) (depth : Nat) (p q : Nat) (h w c : Nat) : Shape :=
  match refConvIter f depth (h, w, c) with
  | (h', w', c') => [h' / p, w' / q, c']

/-!  Helper lemmas about the configuration heap. -/

theorem cfgSet_idem (c : Config) (k : String) (v : Val) :
    cfgSet (cfgSet c k v) k v = cfgSet c k v := by
  induction c with
  | nil => simp [cfgSet]
  | cons kv rest ih =>
    by_cases hk : kv.1 = k
    · simp [cfgSet, hk]
    · simp [cfgSet, hk, ih]

theorem heapGet_append_self (h : Heap) (c : Config) :
    heapGet (h ++ [c]) h.length = c := by
  induction h with
  | nil => rfl
  | cons x rest ih => simp [heapGet, List.getD]

theorem heapGet_append_lt (h : Heap) (l : Heap) (i : Nat) (hi : i < h.length) :
    heapGet (h ++ l) i = heapGet h i := by
  induction h generalizing i with
  | nil => exact absurd hi (by simp)
  | cons x rest ih =>
    cases i with
    | zero => rfl
    | succ j =>
      have hj : j < rest.length := by simpa using hi
      simpa [heapGet, List.getD] using ih j hj

theorem length_heapSet (h : Heap) (r : Nat) (k : String) (v : Val) :
    (heapSet h r k v).length = h.length := by
  simp [heapSet]

theorem heapGet_set_self (h : Heap) (r : Nat) (hr : r < h.length)
    (k : String) (v : Val) :
    heapGet (heapSet h r k v) r = cfgSet (heapGet h r) k v := by
  induction h generalizing r with
  | nil => exact absurd hr (by simp)
  | cons x rest ih =>
    cases r with
    | zero => rfl
    | succ j =>
      have hj : j < rest.length := by simpa using hr
      simpa [heapSet, heapGet, List.getD, List.set] using ih j hj

theorem heapGet_set_ne (h : Heap) (r : Nat) (k : String) (v : Val)
    (i : Nat) (hi : i ≠ r) :
    heapGet (heapSet h r k v) i = heapGet h i := by
  induction h generalizing r i with
  | nil => simp [heapSet]
  | cons x rest ih =>
    cases r with
    | zero =>
      cases i with
      | zero => exact absurd rfl hi
      | succ j => rfl
    | succ m =>
      cases i with
      | zero => rfl
      | succ j =>
        have hj : j ≠ m := fun hjm => hi (by simp [hjm])
        simpa [heapSet, heapGet, List.getD, List.set] using ih m j hj

/-!  The per-block loop of the residual stages: characterization (for the
stride-forcing claim) and heap-frame preservation (for the copy-on-mutate
claim). -/

theorem resStageLoop_eq_refLoop
    (block : Config → Shape → Except String (Cost × Shape)) (c : Config)
    (hidem : cfgSet c "strides" (.int 1) = c) :
    ∀ (n : Nat) (h : Heap) (rc : Nat), rc < h.length → heapGet h rc = c →
      ∀ (s : Shape) (acc : Cost),
        (resStageLoop block n h rc s acc).1 = refResLoop block c n s acc := by
  intro n
  induction n with
  | zero => intro h rc _ _ s acc; rfl
  | succ m ih =>
    intro h rc hrc hget s acc
    rw [resStageLoop, refResLoop, hget]
    cases block c s with
    | error e => rfl
    | ok p =>
      have hlen : rc < (heapSet h rc "strides" (.int 1)).length := by
        rw [length_heapSet]; exact hrc
      have hget' : heapGet (heapSet h rc "strides" (.int 1)) rc = c := by
        rw [heapGet_set_self h rc hrc, hget, hidem]
      exact ih (heapSet h rc "strides" (.int 1)) rc hlen hget' p.2 (dict_add acc p.1)

theorem resStageLoop_eq_refStage
    (block : Config → Shape → Except String (Cost × Shape)) (c : Config)
    (h : Heap) (rc : Nat) (hrc : rc < h.length) (hget : heapGet h rc = c)
    (n : Nat) (s : Shape) :
    (resStageLoop block (n + 1) h rc s emptyCost).1 = refResStage block c (n + 1) s := by
  rw [resStageLoop, refResStage, hget]
  cases block c s with
  | error e => rfl
  | ok p =>
    have hlen : rc < (heapSet h rc "strides" (.int 1)).length := by
      rw [length_heapSet]; exact hrc
    have hget' : heapGet (heapSet h rc "strides" (.int 1)) rc
        = cfgSet c "strides" (.int 1) := by
      rw [heapGet_set_self h rc hrc, hget]
    exact resStageLoop_eq_refLoop block (cfgSet c "strides" (.int 1))
      (cfgSet_idem c "strides" (.int 1)) n _ rc hlen hget' p.2 (dict_add emptyCost p.1)

theorem resStageLoop_preserve
    (block : Config → Shape → Except String (Cost × Shape)) :
    ∀ (n : Nat) (h : Heap) (rc : Nat) (s : Shape) (acc : Cost) (i : Nat), i ≠ rc →
      heapGet (resStageLoop block n h rc s acc).2 i = heapGet h i := by
  intro n
  induction n with
  | zero => intro h rc s acc i _; rfl
  | succ m ih =>
    intro h rc s acc i hi
    rw [resStageLoop]
    cases block (heapGet h rc) s with
    | error e => rfl
    | ok p =>
      rw [ih (heapSet h rc "strides" (.int 1)) rc p.2 (dict_add acc p.1) i hi]
      exact heapGet_set_ne h rc "strides" (.int 1) i hi

theorem resCatalogLoop_preserve :
    ∀ (n : Nat) (h : Heap) (rc : Nat) (s : Shape) (i : Nat), i ≠ rc →
      heapGet (resCatalogLoop n h rc s).2 i = heapGet h i := by
  intro n
  induction n with
  | zero => intro h rc s i _; rfl
  | succ m ih =>
    intro h rc s i hi
    rw [resCatalogLoop]
    cases res_bottleneck_block_run (heapGet h rc) s with
    | error e => rfl
    | ok o =>
      rw [ih (heapSet h rc "strides" (.int 1)) rc o.shape i hi]
      exact heapGet_set_ne h rc "strides" (.int 1) i hi

/-!  Claim theorems. -/

/-- C7: the Cost Accumulator `dict_add` is associative and commutative,
has the empty cost record as identity, and its result contains exactly the
keys present in either input, with the numeric values summed and a key
absent from one side treated as zero. -/
theorem dict_add_cost_accumulator_algebra :
    ∀ a b c : Cost,
      dict_add a (dict_add b c) = dict_add (dict_add a b) c
      ∧ dict_add a emptyCost = a
      ∧ dict_add a b = dict_add b a
      ∧ ∀ k, dict_add a b k =
          if a k = none ∧ b k = none then none
          else some ((a k).getD 0 + (b k).getD 0) := by
  intro a b c
  refine ⟨?_, ?_, ?_, ?_⟩
  · funext k
    simp only [dict_add]
    cases a k <;> cases b k <;> cases c k <;> simp [add_assoc]
  · funext k
    simp only [dict_add, emptyCost]
    cases a k <;> simp
  · funext k
    simp only [dict_add]
    cases a k <;> cases b k <;> simp [add_comm]
  · intro k
    simp only [dict_add]
    cases a k <;> cases b k <;> simp

/-- C6: the simple conv block with `filters = [16, 32]` and
`pool_size = [2, 2]` maps the batch-excluded input shape `(64, 64, 3)` to
`(16, 16, 32)` — channel dimension `32`, each spatial dimension reduced by
a factor `4` through the two successive poolings of size `2`. -/
theorem simple_conv_block_two_pools_shape :
    simple_conv_block_run
        [("filters", Val.list [16, 32]), ("pool_size", Val.list [2, 2])]
        [64, 64, 3]
      = .ok [16, 16, 32] := by rfl

/-- C9: with an empty `filters` list, `simple_conv_block` raises no
failure for any `pool_size` list: `filters * len(pool_size)` is still the
empty list, the length-mismatch check is skipped, and the returned
pipeline applies zero stages, so every input shape is returned unchanged. -/
theorem simple_conv_block_empty_filters (cfg : Config) (ps : List Int) (s : Shape)
    (hf : cfgGet cfg "filters" = some (.list []))
    (hp : cfgGet cfg "pool_size" = some (.list ps)) :
    simple_conv_block_run cfg s = .ok s := by
  simp only [simple_conv_block_run, simple_conv_block, getValE, hf, hp]
  rfl

/-- C9 witness: the empty-filters block at a concrete configuration and
input. -/
theorem simple_conv_block_empty_filters_witness :
    cfgGet [("filters", Val.list []), ("pool_size", Val.list [2, 2])] "filters"
        = some (.list [])
    ∧ cfgGet [("filters", Val.list []), ("pool_size", Val.list [2, 2])] "pool_size"
        = some (.list [2, 2])
    ∧ simple_conv_block_run [("filters", Val.list []), ("pool_size", Val.list [2, 2])]
        [64, 64, 3] = .ok [64, 64, 3] :=
  ⟨rfl, rfl, simple_conv_block_empty_filters _ [2, 2] _ rfl rfl⟩

/-- C1 counterexample: on the configuration `filters = []`, `depth = 0`,
`pool_size = [2, 2]` (valid for both catalog entries — both calls succeed)
and the input shape `(64, 64, 3)`, the Complexity Catalog's
`simple_conv_stage_complexity` returns the output shape `(32, 32, 3)`
(its single pooling still runs), while the Block Catalog's
`simple_conv_block` pipeline returns `(64, 64, 3)` (it applies one pooling
per `filters` entry, here none) — so the returned output shape does not
equal the shape the block produces. -/
theorem simple_conv_stage_vs_block_counterexample :
    (simple_conv_stage_complexity
        [("filters", Val.list []), ("depth", Val.int 0), ("pool_size", Val.list [2, 2])]
        [64, 64, 3]).map Prod.snd = .ok [32, 32, 3]
    ∧ simple_conv_block_run
        [("filters", Val.list []), ("depth", Val.int 0), ("pool_size", Val.list [2, 2])]
        [64, 64, 3] = .ok [64, 64, 3]
    ∧ ([32, 32, 3] : Shape) ≠ [64, 64, 3] :=
  ⟨rfl, rfl, by decide⟩

theorem refConvIter_eq (f : Nat) :
    ∀ (n : Nat) (h w c : Nat),
      refConvIter f n (h, w, c) = (h, w, if n = 0 then c else f) := by
  intro n
  induction n with
  | zero => intro h w c; rfl
  | succ m ih =>
    intro h w c
    rw [refConvIter, ih]
    simp

theorem convNormLoop_shape (f : Int) :
    ∀ (n : Nat) (h w c : Nat) (cx : Cost),
      ∃ cx', convNormLoop n (.int f) [h, w, c] cx
          = .ok (cx', [h, w, if n = 0 then c else f.toNat]) := by
  intro n
  induction n with
  | zero => intro h w c cx; exact ⟨cx, rfl⟩
  | succ m ih =>
    intro h w c cx
    obtain ⟨cx', hcx'⟩ := ih h w f.toNat
      (dict_add (dict_add cx (convCx 3 c f.toNat 1 h w))
        (mkCost [("params", 4 * (f.toNat : Int))]))
    refine ⟨cx', ?_⟩
    rw [convNormLoop]
    show convNormLoop m (.int f) [h, w, f.toNat]
        (dict_add (dict_add cx (convCx 3 c f.toNat 1 h w))
          (mkCost [("params", 4 * (f.toNat : Int))]))
      = _
    rw [hcx']
    simp

/-- C1 amended: for every configuration that
`simple_conv_stage_complexity` accepts (integer `filters` and `depth`,
`pool_size` with pooling factors `(p, q)`, no explicit `strides`), its
returned output shape is that of `depth` same-padded convolutions with
`filters` output channels followed by a single pooling dividing the two
spatial dimensions by `(p, q)` — the structure of the complexity function
itself, which does not in general equal the shape that the Block
Catalog's `simple_conv_block` pipeline produces. -/
theorem simple_conv_stage_complexity_shape_eq_ref
    (cfg : Config) (f d : Int) (pv : Val) (p q : Nat) (h w c : Nat)
    (hf : cfgGet cfg "filters" = some (.int f))
    (hd : cfgGet cfg "depth" = some (.int d))
    (hp : cfgGet cfg "pool_size" = some pv)
    (hs : cfgGet cfg "strides" = none)
    (hpp : poolPair pv = .ok (p, q)) :
    (simple_conv_stage_complexity cfg [h, w, c]).map Prod.snd
      = .ok (refSimpleStageShape f.toNat d.toNat p q h w c) := by
  obtain ⟨cx', hcx'⟩ := convNormLoop_shape f d.toNat h w c emptyCost
  simp only [simple_conv_stage_complexity, getValE, getIntE, hf, hd, hp, hs,
    Bind.bind, Except.bind]
  rw [hcx']
  simp only [pool2d_complexityV, Option.getD, hpp, Bind.bind, Except.bind,
    Except.map]
  rw [refSimpleStageShape, refConvIter_eq]

/-- C1 amended witness: the characterization at a concrete configuration
(`filters = 8`, `depth = 2`, `pool_size = [2, 2]`) and input `(64, 64, 3)`. -/
theorem simple_conv_stage_complexity_shape_eq_ref_witness :
    cfgGet [("filters", Val.int 8), ("depth", Val.int 2), ("pool_size", Val.list [2, 2])]
        "filters" = some (.int 8)
    ∧ (simple_conv_stage_complexity
        [("filters", Val.int 8), ("depth", Val.int 2), ("pool_size", Val.list [2, 2])]
        [64, 64, 3]).map Prod.snd
      = .ok (refSimpleStageShape (Int.toNat 8) (Int.toNat 2) 2 2 64 64 3) :=
  ⟨rfl, simple_conv_stage_complexity_shape_eq_ref _ 8 2 (Val.list [2, 2]) 2 2 64 64 3
    rfl rfl rfl rfl rfl⟩

/-- C5 counterexample: on the claim's configuration `filters = [16, 32, 64]`,
`pool_size = [2, 2]`, the complexity function `simple_conv_stage_complexity`
does not raise a length-mismatch failure: at the configuration as given it
fails on the missing mandatory `depth` key instead, and once `depth = 0` is
supplied it succeeds outright — it contains no length validation at all. -/
theorem simple_conv_stage_complexity_no_length_check :
    simple_conv_stage_complexity
        [("filters", Val.list [16, 32, 64]), ("pool_size", Val.list [2, 2])]
        [64, 64, 3] = .error "KeyError: depth"
    ∧ (simple_conv_stage_complexity
        [("filters", Val.list [16, 32, 64]), ("pool_size", Val.list [2, 2]),
         ("depth", Val.int 0)]
        [64, 64, 3]).isOk = true
    ∧ "KeyError: depth" ≠ "len of filters and pool_size do not match" :=
  ⟨rfl, rfl, by decide⟩

/-- C5 amended: on a non-empty `filters` list whose length differs from
the `pool_size` list's, the Block Catalog's `simple_conv_block` raises the
explicit length-mismatch failure naming the mismatched fields; the
Complexity Catalog's `simple_conv_stage_complexity` performs no such
validation (see the counterexample: it raises a missing-key failure for
`depth` or succeeds). -/
theorem simple_conv_block_length_mismatch (cfg : Config) (fl pl : List Int)
    (hf : cfgGet cfg "filters" = some (.list fl))
    (hp : cfgGet cfg "pool_size" = some (.list pl))
    (hne : fl ≠ []) (hlen : fl.length ≠ pl.length) :
    simple_conv_block cfg = .error "len of filters and pool_size do not match" := by
  simp only [simple_conv_block, getValE, hf, hp, Bind.bind, Except.bind]
  rw [if_neg (by simpa using hne), if_pos hlen]

/-- C5 amended witness: the length-mismatch failure at the claim's
concrete configuration. -/
theorem simple_conv_block_length_mismatch_witness :
    cfgGet [("filters", Val.list [16, 32, 64]), ("pool_size", Val.list [2, 2])]
        "filters" = some (.list [16, 32, 64])
    ∧ simple_conv_block
        [("filters", Val.list [16, 32, 64]), ("pool_size", Val.list [2, 2])]
      = .error "len of filters and pool_size do not match" :=
  ⟨rfl, simple_conv_block_length_mismatch _ [16, 32, 64] [2, 2] rfl rfl
    (by decide) (by decide)⟩

theorem convOutDim_one (n : Nat) : convOutDim n 1 = n := by
  simp [convOutDim]

/-- C2: in `res_bottleneck_block`, the shortcut projection is applied if
and only if the stride — after a scalar stride `s` is normalized to the
tuple `(s, s)` — differs from `(1, 1)` or the input channel count differs
from `filters`; in particular for stride `(1, 1)` with the channel count
equal to `filters` no shortcut projection is applied. -/
theorem res_bottleneck_block_shortcut_condition
    (cfg : Config) (f g bn : Int) (bd : Nat) (stv : Val) (st : Int × Int)
    (h w c : Nat)
    (hf : cfgGet cfg "filters" = some (.int f))
    (hs : cfgGet cfg "strides" = some stv)
    (hg : cfgGet cfg "groups" = some (.int g))
    (hb : cfgGet cfg "bottleneck_ratio" = some (.frac bn bd))
    (hst : normalizeStrides stv = .ok st) :
    (res_bottleneck_block_run cfg [h, w, c]).map (fun o => o.usedShortcut)
      = .ok (decide (st ≠ (1, 1) ∨ (c : Int) ≠ f))
    ∧ ∀ s0 : Int, normalizeStrides (.int s0) = .ok (s0, s0) := by
  constructor
  · simp only [res_bottleneck_block_run, res_bottleneck_block, getIntE, getValE,
      getFracE, hf, hs, hg, hb, hst, Bind.bind, Except.bind, conv2dShape,
      channelInt]
    by_cases hcond : st ≠ (1, 1) ∨ (c : Int) ≠ f
    · rw [if_pos (by simpa [channelInt] using hcond)]
      simp [convOutDim_one, addResidual, Except.map, hcond]
      simpa using hcond
    · rw [if_neg (by simpa [channelInt] using hcond)]
      push_neg at hcond
      obtain ⟨hst1, hc⟩ := hcond
      subst hst1
      have hcf : f.toNat = c := by
        rw [← hc]
        exact Int.toNat_natCast c
      simp [addResidual, convOutDim_one, hcf, hc, Except.map]
  · intro s0; rfl

/-- C2 witness: the shortcut condition evaluated at a concrete
configuration (`filters = 32`, scalar `strides = 2`, input channel 32). -/
theorem res_bottleneck_block_shortcut_condition_witness :
    normalizeStrides (Val.int 2) = .ok (2, 2)
    ∧ ((res_bottleneck_block_run
          [("filters", Val.int 32), ("strides", Val.int 2), ("groups", Val.int 1),
           ("bottleneck_ratio", Val.frac 1 4)] [8, 8, 32]).map (fun o => o.usedShortcut)
        = .ok (decide (((2 : Int), (2 : Int)) ≠ (1, 1) ∨ ((32 : Nat) : Int) ≠ (32 : Int)))
      ∧ ∀ s0 : Int, normalizeStrides (.int s0) = .ok (s0, s0)) :=
  ⟨rfl, res_bottleneck_block_shortcut_condition _ 32 1 1 4 (Val.int 2) (2, 2) 8 8 32
      rfl rfl rfl rfl rfl⟩

theorem denseShape_of_ne_nil (u : Nat) (s : Shape) (hs : s ≠ []) :
    denseShape u s = .ok (s.dropLast ++ [u]) := by
  cases s with
  | nil => exact absurd rfl hs
  | cons a rest => rfl

/-- C10: the pipeline returned by `transformer_encoder_layer` has the
precondition that the input's last dimension equals the configured
`d_model`: on any input with a different last dimension the internal
assertion fails, and on every input whose last dimension equals `d_model`
the assertion passes and the output shape equals the input shape (both
residual additions are shape-preserving). -/
theorem transformer_encoder_layer_shape_safety
    (cfg : Config) (dm nh : Int) (s : Shape) (c : Nat)
    (hd : cfgGet cfg "d_model" = some (.int dm))
    (hn : cfgGet cfg "n_head" = some (.int nh))
    (hdf : cfgGet cfg "dim_feedforward" = none)
    (hc : s.getLast? = some c) :
    ((c : Int) ≠ dm → transformer_encoder_layer_run cfg s = .error "AssertionError")
    ∧ ((c : Int) = dm → transformer_encoder_layer_run cfg s = .ok s) := by
  have hsne : s ≠ [] := by
    intro hnil
    rw [hnil] at hc
    simp at hc
  have hlast : lastDimE s = .ok c := by
    rw [lastDimE, hc]
  constructor
  · intro hne
    simp only [transformer_encoder_layer_run, transformer_encoder_layer,
      getIntE, hd, hn, hdf, Bind.bind, Except.bind, hlast]
    rw [if_neg hne]
  · intro heq
    have hdm : dm.toNat = c := by
      rw [← heq]
      exact Int.toNat_natCast c
    have hdrop : s.dropLast ++ [c] = s := by
      conv_rhs => rw [← List.dropLast_append_getLast hsne]
      have : s.getLast hsne = c := by
        have := List.getLast?_eq_getLast s hsne
        rw [hc] at this
        exact (Option.some.injEq _ _).mp this.symm
      rw [this]
    have h1 : addShapes s s = .ok s := by rw [addShapes, if_pos rfl]
    have h2 : denseShape (dm * 4).toNat s = .ok (s.dropLast ++ [(dm * 4).toNat]) :=
      denseShape_of_ne_nil _ s hsne
    have h3 : denseShape dm.toNat (s.dropLast ++ [(dm * 4).toNat])
        = .ok ((s.dropLast ++ [(dm * 4).toNat]).dropLast ++ [dm.toNat]) :=
      denseShape_of_ne_nil _ _ (by simp)
    have h4 : (s.dropLast ++ [(dm * 4).toNat]).dropLast ++ [dm.toNat] = s := by
      rw [List.dropLast_concat, hdm, hdrop]
    simp only [transformer_encoder_layer_run, transformer_encoder_layer,
      getIntE, hd, hn, hdf, Bind.bind, Except.bind, hlast]
    rw [if_pos heq]
    simp only [mhaShape, h1, h2, h3, h4, Bind.bind, Except.bind]

/-- C10 witness: the transformer encoder pipeline at `d_model = 16` on the
matching input `(10, 16)` and the violating input `(10, 8)`. -/
theorem transformer_encoder_layer_shape_safety_witness :
    (((16 : Nat) : Int) ≠ (8 : Int) →
      transformer_encoder_layer_run [("d_model", Val.int 8), ("n_head", Val.int 4)]
        [10, 16] = .error "AssertionError")
    ∧ (((16 : Nat) : Int) = (16 : Int) →
      transformer_encoder_layer_run [("d_model", Val.int 16), ("n_head", Val.int 4)]
        [10, 16] = .ok [10, 16]) :=
  ⟨fun hne =>
    (transformer_encoder_layer_shape_safety
      [("d_model", Val.int 8), ("n_head", Val.int 4)] 8 4 [10, 16] 16
      rfl rfl rfl rfl).1 hne,
   fun heq =>
    (transformer_encoder_layer_shape_safety
      [("d_model", Val.int 16), ("n_head", Val.int 4)] 16 4 [10, 16] 16
      rfl rfl rfl rfl).2 heq⟩

/-- C8: a mandatory key that is absent makes the call fail immediately at
the lookup with a missing-key failure that propagates to the caller (shown
for `depth` in `simple_conv_stage_complexity`, looked up right after
`filters`, and for `groups` in `res_bottleneck_block`), while the absent
optional `strides` key of `simple_conv_stage_complexity` is replaced by
its default and the call succeeds without failure. -/
theorem mandatory_key_failures_and_optional_default :
    (∀ (cfg : Config) (s : Shape) (fv : Val),
        cfgGet cfg "filters" = some fv → cfgGet cfg "depth" = none →
        simple_conv_stage_complexity cfg s = .error "KeyError: depth")
    ∧ (∀ (cfg : Config) (f : Int) (sv : Val),
        cfgGet cfg "filters" = some (.int f) → cfgGet cfg "strides" = some sv →
        cfgGet cfg "groups" = none →
        res_bottleneck_block cfg = .error "KeyError: groups")
    ∧ (∀ (cfg : Config) (f d p : Int) (h w c : Nat),
        cfgGet cfg "filters" = some (.int f) → cfgGet cfg "depth" = some (.int d) →
        cfgGet cfg "pool_size" = some (.int p) → cfgGet cfg "strides" = none →
        (simple_conv_stage_complexity cfg [h, w, c]).isOk = true) := by
  refine ⟨?_, ?_, ?_⟩
  · intro cfg s fv hf hd
    simp only [simple_conv_stage_complexity, getValE, getIntE, hf, hd,
      Bind.bind, Except.bind]
    rfl
  · intro cfg f sv hf hs hg
    simp only [res_bottleneck_block, getIntE, getValE, hf, hs, hg,
      Bind.bind, Except.bind]
    rfl
  · intro cfg f d p h w c hf hd hp hs
    obtain ⟨cx', hcx'⟩ := convNormLoop_shape f d.toNat h w c emptyCost
    simp only [simple_conv_stage_complexity, getValE, getIntE, hf, hd, hp, hs,
      Bind.bind, Except.bind, hcx', pool2d_complexityV, Option.getD, poolPair]
    rfl

/-- C8 witness: the missing-key failures and the optional default at
concrete configurations. -/
theorem mandatory_key_failures_and_optional_default_witness :
    simple_conv_stage_complexity [("filters", Val.int 8)] [4, 4, 3]
        = .error "KeyError: depth"
    ∧ res_bottleneck_block [("filters", Val.int 8), ("strides", Val.int 1)]
        = .error "KeyError: groups"
    ∧ (simple_conv_stage_complexity
        [("filters", Val.int 8), ("depth", Val.int 1), ("pool_size", Val.int 2)]
        [4, 4, 3]).isOk = true :=
  ⟨mandatory_key_failures_and_optional_default.1
      [("filters", Val.int 8)] [4, 4, 3] (Val.int 8) rfl rfl,
   (mandatory_key_failures_and_optional_default.2.1)
      [("filters", Val.int 8), ("strides", Val.int 1)] 8 (Val.int 1) rfl rfl rfl,
   (mandatory_key_failures_and_optional_default.2.2)
      [("filters", Val.int 8), ("depth", Val.int 1), ("pool_size", Val.int 2)]
      8 1 2 4 4 3 rfl rfl rfl rfl⟩

/-- C3: for every configuration with `depth ≥ 1`, both
`res_basic_stage_complexity` and `res_bottleneck_stage_complexity` equal
the reference stage that evaluates the per-block cost/shape function
`depth` times, threading the shape sequentially and accumulating the
per-block cost records with the Cost Accumulator, where the configured
`strides` value is used only for the first iteration and every later
iteration is computed with `strides` forced to `1`. -/
theorem res_stage_complexity_stride_forcing
    (h : Heap) (r : Nat) (s : Shape) (d : Int) (stv : Val)
    (hd : cfgGet (heapGet h r) "depth" = some (.int d))
    (hs : cfgGet (heapGet h r) "strides" = some stv)
    (hd1 : 1 ≤ d.toNat) :
    (res_basic_stage_complexity_st h r s).1
        = refResStage res_basic_block_complexity (heapGet h r) d.toNat s
    ∧ (res_bottleneck_stage_complexity_st h r s).1
        = refResStage res_bottleneck_block_complexity (heapGet h r) d.toNat s := by
  obtain ⟨n, hn⟩ : ∃ n, d.toNat = n + 1 := ⟨d.toNat - 1, by omega⟩
  have hrc : h.length < (h ++ [heapGet h r]).length := by simp
  have hget : heapGet (h ++ [heapGet h r]) h.length = heapGet h r :=
    heapGet_append_self h (heapGet h r)
  constructor
  · simp only [res_basic_stage_complexity_st, hd, hs, deepcopy]
    rw [hn]
    exact resStageLoop_eq_refStage _ _ _ _ hrc hget n s
  · simp only [res_bottleneck_stage_complexity_st, hd, hs, deepcopy]
    rw [hn]
    exact resStageLoop_eq_refStage _ _ _ _ hrc hget n s

/-- C3 witness: both residual stage complexity functions at a concrete
heap, configuration (`depth = 3`, `strides = 2`) and input shape. -/
theorem res_stage_complexity_stride_forcing_witness :
    cfgGet (heapGet [[("depth", Val.int 3), ("strides", Val.int 2),
        ("filters", Val.int 32), ("groups", Val.int 1),
        ("bottleneck_ratio", Val.frac 1 4)]] 0) "depth" = some (.int 3)
    ∧ ((res_basic_stage_complexity_st [[("depth", Val.int 3), ("strides", Val.int 2),
          ("filters", Val.int 32), ("groups", Val.int 1),
          ("bottleneck_ratio", Val.frac 1 4)]] 0 [8, 8, 32]).1
        = refResStage res_basic_block_complexity
            (heapGet [[("depth", Val.int 3), ("strides", Val.int 2),
              ("filters", Val.int 32), ("groups", Val.int 1),
              ("bottleneck_ratio", Val.frac 1 4)]] 0) (Int.toNat 3) [8, 8, 32]
      ∧ (res_bottleneck_stage_complexity_st [[("depth", Val.int 3), ("strides", Val.int 2),
          ("filters", Val.int 32), ("groups", Val.int 1),
          ("bottleneck_ratio", Val.frac 1 4)]] 0 [8, 8, 32]).1
        = refResStage res_bottleneck_block_complexity
            (heapGet [[("depth", Val.int 3), ("strides", Val.int 2),
              ("filters", Val.int 32), ("groups", Val.int 1),
              ("bottleneck_ratio", Val.frac 1 4)]] 0) (Int.toNat 3) [8, 8, 32]) :=
  ⟨rfl, res_stage_complexity_stride_forcing
      [[("depth", Val.int 3), ("strides", Val.int 2), ("filters", Val.int 32),
        ("groups", Val.int 1), ("bottleneck_ratio", Val.frac 1 4)]]
      0 [8, 8, 32] 3 (Val.int 2) rfl rfl (by decide)⟩

/-- C4: calling any of the residual stage functions — the complexity
catalog's `res_basic_stage_complexity` and
`res_bottleneck_stage_complexity` and the block catalog's
`res_bottleneck_stage` — leaves every configuration dictionary that
existed before the call (in particular the caller's, at any reference `i`)
unmodified: the stride variation across iterations happens only on the
deep copy. -/
theorem res_stage_config_not_mutated
    (h : Heap) (r : Nat) (s : Shape) (i : Nat) (hi : i < h.length) :
    heapGet (res_basic_stage_complexity_st h r s).2 i = heapGet h i
    ∧ heapGet (res_bottleneck_stage_complexity_st h r s).2 i = heapGet h i
    ∧ heapGet (res_bottleneck_stage_st h r s).2 i = heapGet h i := by
  have hine : i ≠ h.length := by omega
  have happ : heapGet (h ++ [heapGet h r]) i = heapGet h i :=
    heapGet_append_lt h _ i hi
  refine ⟨?_, ?_, ?_⟩
  · cases hdv : cfgGet (heapGet h r) "depth" with
    | none => simp only [res_basic_stage_complexity_st, hdv]
    | some dv =>
      cases hsv : cfgGet (heapGet h r) "strides" with
      | none => simp only [res_basic_stage_complexity_st, hdv, hsv]
      | some sv =>
        cases dv with
        | int d =>
          simp only [res_basic_stage_complexity_st, hdv, hsv, deepcopy]
          rw [resStageLoop_preserve _ d.toNat _ _ _ _ i hine, happ]
        | list l => simp only [res_basic_stage_complexity_st, hdv, hsv]
        | pair a b => simp only [res_basic_stage_complexity_st, hdv, hsv]
        | frac a b => simp only [res_basic_stage_complexity_st, hdv, hsv]
        | str t => simp only [res_basic_stage_complexity_st, hdv, hsv]
  · cases hdv : cfgGet (heapGet h r) "depth" with
    | none => simp only [res_bottleneck_stage_complexity_st, hdv]
    | some dv =>
      cases hsv : cfgGet (heapGet h r) "strides" with
      | none => simp only [res_bottleneck_stage_complexity_st, hdv, hsv]
      | some sv =>
        cases dv with
        | int d =>
          simp only [res_bottleneck_stage_complexity_st, hdv, hsv, deepcopy]
          rw [resStageLoop_preserve _ d.toNat _ _ _ _ i hine, happ]
        | list l => simp only [res_bottleneck_stage_complexity_st, hdv, hsv]
        | pair a b => simp only [res_bottleneck_stage_complexity_st, hdv, hsv]
        | frac a b => simp only [res_bottleneck_stage_complexity_st, hdv, hsv]
        | str t => simp only [res_bottleneck_stage_complexity_st, hdv, hsv]
  · cases hdv : cfgGet (heapGet h r) "depth" with
    | none => simp only [res_bottleneck_stage_st, hdv]
    | some dv =>
      cases hsv : cfgGet (heapGet h r) "strides" with
      | none => simp only [res_bottleneck_stage_st, hdv, hsv]
      | some sv =>
        cases dv with
        | int d =>
          simp only [res_bottleneck_stage_st, hdv, hsv, deepcopy]
          rw [resCatalogLoop_preserve d.toNat _ _ _ i hine, happ]
        | list l => simp only [res_bottleneck_stage_st, hdv, hsv]
        | pair a b => simp only [res_bottleneck_stage_st, hdv, hsv]
        | frac a b => simp only [res_bottleneck_stage_st, hdv, hsv]
        | str t => simp only [res_bottleneck_stage_st, hdv, hsv]

/-- C4 witness: the three residual stage functions leave the caller's
concrete configuration dictionary unchanged. -/
theorem res_stage_config_not_mutated_witness :
    (0 : Nat) < ([[("depth", Val.int 2), ("strides", Val.int 2),
        ("filters", Val.int 32), ("groups", Val.int 1),
        ("bottleneck_ratio", Val.frac 1 4)]] : Heap).length
    ∧ (heapGet (res_basic_stage_complexity_st [[("depth", Val.int 2), ("strides", Val.int 2),
          ("filters", Val.int 32), ("groups", Val.int 1),
          ("bottleneck_ratio", Val.frac 1 4)]] 0 [8, 8, 32]).2 0
        = heapGet [[("depth", Val.int 2), ("strides", Val.int 2),
          ("filters", Val.int 32), ("groups", Val.int 1),
          ("bottleneck_ratio", Val.frac 1 4)]] 0
      ∧ heapGet (res_bottleneck_stage_complexity_st [[("depth", Val.int 2), ("strides", Val.int 2),
          ("filters", Val.int 32), ("groups", Val.int 1),
          ("bottleneck_ratio", Val.frac 1 4)]] 0 [8, 8, 32]).2 0
        = heapGet [[("depth", Val.int 2), ("strides", Val.int 2),
          ("filters", Val.int 32), ("groups", Val.int 1),
          ("bottleneck_ratio", Val.frac 1 4)]] 0
      ∧ heapGet (res_bottleneck_stage_st [[("depth", Val.int 2), ("strides", Val.int 2),
          ("filters", Val.int 32), ("groups", Val.int 1),
          ("bottleneck_ratio", Val.frac 1 4)]] 0 [8, 8, 32]).2 0
        = heapGet [[("depth", Val.int 2), ("strides", Val.int 2),
          ("filters", Val.int 32), ("groups", Val.int 1),
          ("bottleneck_ratio", Val.frac 1 4)]] 0) :=
  ⟨by decide,
   res_stage_config_not_mutated
     [[("depth", Val.int 2), ("strides", Val.int 2), ("filters", Val.int 32),
       ("groups", Val.int 1), ("bottleneck_ratio", Val.frac 1 4)]]
     0 [8, 8, 32] 0 (by decide)⟩
